import Mathlib

/-!
# Verification of `deepchem/datasets/supports.py`

Shallow embedding of the support-sampling module.  A multi-task dataset is a
quadruple of index-aligned lists (`X`, `y`, `w`, `ids`); numpy row/column
selection is modelled with explicit list operations, and the random draws of
`np.random.choice` / `np.random.permutation` are supplied by explicit oracle
parameters (a draw function, respectively a permutation list), so that every
proved property holds for every possible random outcome.
-/

set_option maxHeartbeats 1000000

namespace Supports

/-- A multi-task dataset: `X` features, `y` labels (sample x task), `w`
per-task weights (sample x task), `ids` sample identifiers.  Mirrors the
`deepchem.datasets.Dataset` collaborator of `supports.py`. -/
structure Dataset (α : Type) where
  X : List α
  y : List (List Int)
  w : List (List Int)
  ids : List Nat
deriving DecidableEq

/-- A single-task dataset as produced by the selection primitives: `y` and `w`
are collapsed to the selected task's column (1-D).
Modelled from the spec: the `NumpyDataset` constructor (imported by
`supports.py` but outside this file) "accepts four positional sequences
`(X, y, w, ids)` of matching length and returns a Dataset value"; we model it
as plain bundling of the four sequences. -/
structure TaskDataset (α : Type) where
  X : List α
  y : List Int
  w : List Int
  ids : List Nat
deriving DecidableEq

/-- One logical row of a single-task view: feature, label on the task,
weight on the task, id. -/
structure TaskRow (α : Type) where
  x : α
  yv : Int
  wv : Int
  id : Nat
deriving DecidableEq

/-- Default row used as the `getD` fallback (never reached on in-range
indices). -/
def rowDefault {α : Type} [Inhabited α] : TaskRow α := ⟨default, 0, 0, 0⟩

/-- The column `M[:, t]` of a 2-D array modelled as list of rows
(missing entries default to 0, matching an always-in-range numpy access
under the alignment hypotheses carried by the theorems). -/
def colD (M : List (List Int)) (t : Nat) : List Int :=
  M.map (fun row => row.getD t 0)

/-- Integer fancy indexing `xs[inds]` of numpy. -/
def gather {β : Type} [Inhabited β] (xs : List β) (inds : List Nat) : List β :=
  inds.map (fun i => xs.getD i default)

/-- Boolean-mask indexing `xs[mask]` of numpy. -/
def maskFilter {β : Type} : List Bool → List β → List β
  | true :: ms, x :: xs => x :: maskFilter ms xs
  | false :: ms, _ :: xs => maskFilter ms xs
  | _, _ => []

/-- `np.where(p(xs))[0]`: the (ascending) indices of the entries of `xs`
satisfying `p`. -/
def idxWhere (p : Int → Bool) (xs : List Int) : List Nat :=
  (List.range xs.length).filter (fun i => p (xs.getD i 0))

/-- Zip the four parallel columns of a single-task view into logical rows. -/
def zip4 {α : Type} : List α → List Int → List Int → List Nat → List (TaskRow α)
  | a :: as_, b :: bs, c :: cs, d :: ds => ⟨a, b, c, d⟩ :: zip4 as_ bs cs ds
  | _, _, _, _ => []

/-- The rows of a single-task dataset. -/
def TaskDataset.rows {α : Type} (r : TaskDataset α) : List (TaskRow α) :=
  zip4 r.X r.y r.w r.ids

/-- The rows of a multi-task dataset, restricted to task `t`'s columns. -/
def Dataset.taskRows {α : Type} (d : Dataset α) (t : Nat) : List (TaskRow α) :=
  zip4 d.X (colD d.y t) (colD d.w t) d.ids

/-- All four components of a dataset have the same length (the spec's shared
sample count `N`). -/
def aligned {α : Type} (d : Dataset α) : Prop :=
  d.y.length = d.X.length ∧ d.w.length = d.X.length ∧ d.ids.length = d.X.length

instance {α : Type} (d : Dataset α) : Decidable (aligned d) := by
  unfold aligned; infer_instance

/-- Modelled from the spec: `len(dataset)` (the `NumpyDataset` length query,
outside this file) "exposes a length query (`len`)" over four index-aligned
sequences of equal length `N`; under `aligned` any component's length works,
we use `X`. -/
def datasetLen {α : Type} (d : Dataset α) : Nat := d.X.length

/-- Error kinds raised by `np.random.choice` (spec section 7). -/
inductive SampleError
  | emptyPool
  | insufficientSamples
deriving DecidableEq

/-- `np.random.choice(pop, n, replace=replace)`: fails if the population is
empty and a nonzero sample count is requested (checked first), or if
`replace=False` and the requested count exceeds the population; otherwise
returns `n` indices `< pop`, here produced by the oracle `draw` (reduced
mod `pop` so that any oracle yields in-range indices). -/
def np_choice (pop n : Nat) (replace : Bool) (draw : Nat → Nat) :
    Except SampleError (List Nat) :=
  if pop = 0 ∧ 0 < n then .error .emptyPool
  else if replace = false ∧ pop < n then .error .insufficientSamples
  else .ok ((List.range n).map (fun i => draw i % pop))

/-- `get_task_dataset(dataset, task)` (lines 46-57): selects the rows with
nonzero weight on column `task` and collapses `y`/`w` to that column.
(Spec name: `task_view`.) -/
def get_task_dataset {α : Type} (d : Dataset α) (task : Nat) : TaskDataset α :=
  let w_task := colD d.w task
  let mask := w_task.map (fun v => v != 0)
  { X := maskFilter mask d.X,
    y := colD (maskFilter mask d.y) task,
    w := colD (maskFilter mask d.w) task,
    ids := maskFilter mask d.ids }

/-- `get_task_dataset_minus_support(dataset, support, task)` (lines 11-44):
first drops every row whose id occurs in `support.ids`, then applies the same
task filtering as `get_task_dataset` (lines 36-43 of the source repeat lines
49-55 verbatim on the reduced arrays, so we reuse `get_task_dataset`).
(Spec name: `task_view_excluding_support`.) -/
def get_task_dataset_minus_support {α : Type} [Inhabited α] (d : Dataset α)
    (support : TaskDataset α) (task : Nat) : TaskDataset α :=
  let support_ids := support.ids
  let non_support_inds :=
    (List.range (datasetLen d)).filter
      (fun ind => !(decide (d.ids.getD ind 0 ∈ support_ids)))
  get_task_dataset
    { X := gather d.X non_support_inds,
      y := gather d.y non_support_inds,
      w := gather d.w non_support_inds,
      ids := gather d.ids non_support_inds } task

/-- `get_task_test(dataset, batch_size, task, replace)` (lines 59-77):
filters to rows with nonzero weight on `task`, draws `batch_size` row indices
from the filtered population and returns the corresponding slice, with `y`/`w`
squeezed to the task column (`np.squeeze` is the identity in the list model).
(Spec name: `random_task_batch`.) -/
def get_task_test {α : Type} [Inhabited α] (d : Dataset α) (batch_size task : Nat)
    (replace : Bool) (draw : Nat → Nat) : Except SampleError (TaskDataset α) :=
  let w_task := colD d.w task
  let mask := w_task.map (fun v => v != 0)
  let X_task := maskFilter mask d.X
  let y_task := maskFilter mask d.y
  let ids_task := maskFilter mask d.ids
  let w_task2 := maskFilter mask d.w
  match np_choice X_task.length batch_size replace draw with
  | .error e => .error e
  | .ok inds =>
      .ok { X := gather X_task inds,
            y := colD (gather y_task inds) task,
            w := colD (gather w_task2 inds) task,
            ids := gather ids_task inds }

/-- The positive pool `pos_mols = np.where(y[:, task] == 1)[0]` of
`get_task_support` (line 103). -/
def posPool {α : Type} (d : Dataset α) (task : Nat) : List Nat :=
  idxWhere (fun v => v == 1) (colD d.y task)

/-- The negative pool `neg_mols = np.where(y[:, task] == 0)[0]` of
`get_task_support` (line 104). -/
def negPool {α : Type} (d : Dataset α) (task : Nat) : List Nat :=
  idxWhere (fun v => v == 0) (colD d.y task)

/-- The dataset assembled from the sampled positive and negative row indices
(lines 110-124).  `np.vstack` (multi-D features) and `np.concatenate`
(1-D features) both append along the sample axis, which is list append in
this model. -/
def supportResult {α : Type} [Inhabited α] (d : Dataset α) (task : Nat)
    (pos_inds neg_inds : List Nat) : TaskDataset α :=
  { X := gather d.X pos_inds ++ gather d.X neg_inds,
    y := gather (colD d.y task) pos_inds ++ gather (colD d.y task) neg_inds,
    w := gather (colD d.w task) pos_inds ++ gather (colD d.w task) neg_inds,
    ids := gather d.ids pos_inds ++ gather d.ids neg_inds }

/-- `get_task_support(dataset, n_pos, n_neg, task, replace)` (lines 79-124):
splits the rows by label on column `task` into a positive pool (`y == 1`) and
a negative pool (`y == 0`), samples `n_pos` resp. `n_neg` indices from them
(positive pool first, as in lines 107-108), and concatenates the selected
rows positive-then-negative.  (Spec name: `balanced_task_support`.) -/
def get_task_support {α : Type} [Inhabited α] (d : Dataset α) (n_pos n_neg task : Nat)
    (replace : Bool) (posDraw negDraw : Nat → Nat) :
    Except SampleError (TaskDataset α) :=
  let pos_mols := posPool d task
  let neg_mols := negPool d task
  match np_choice pos_mols.length n_pos replace posDraw with
  | .error e => .error e
  | .ok pcs =>
      match np_choice neg_mols.length n_neg replace negDraw with
      | .error e => .error e
      | .ok ncs =>
          let pos_inds := pcs.map (fun j => pos_mols.getD j 0)
          let neg_inds := ncs.map (fun j => neg_mols.getD j 0)
          .ok (supportResult d task pos_inds neg_inds)

/-! ## The Support Generator (lines 126-194) -/

/-- The state of a `SupportGenerator` object (section 3 of the spec):
construction parameters plus the mutable iterator state `perm_tasks`,
`task_num`, `trial_num`. -/
structure SGState (α : Type) where
  dataset : Dataset α
  tasks : List Nat
  n_tasks : Nat
  n_pos : Nat
  n_neg : Nat
  n_trials : Nat
  replace : Bool
  perm_tasks : List Nat
  task_num : Nat
  trial_num : Nat
deriving DecidableEq

/-- One advance's worth of random input: the two `np.random.choice` draw
oracles used by `get_task_support` and the fresh permutation produced by
`np.random.permutation(self.tasks)` (line 189) in case the trial ends. -/
structure Oracle where
  posDraw : Nat → Nat
  negDraw : Nat → Nat
  perm : List Nat

/-- `SupportGenerator.__init__` (lines 132-164).  `initPerm` is the oracle
value for the `np.random.permutation(self.tasks)` of line 161; theorems
constrain it to be a permutation of `tasks`. -/
def SG_init {α : Type} (dataset : Dataset α) (tasks : List Nat)
    (n_pos n_neg n_trials : Nat) (replace : Bool) (initPerm : List Nat) :
    SGState α :=
  { dataset := dataset, tasks := tasks, n_tasks := tasks.length,
    n_pos := n_pos, n_neg := n_neg, n_trials := n_trials, replace := replace,
    perm_tasks := initPerm, task_num := 0, trial_num := 0 }

/-- Outcomes of one advance: `StopIteration` (line 178), an `IndexError` from
`self.perm_tasks[self.task_num]` (line 180) when the cursor is out of range,
or an error propagating out of the support draw (lines 182-184). -/
inductive Signal
  | stopIteration
  | indexError
  | sampleError (e : SampleError)
deriving DecidableEq

/-- `SupportGenerator.next` (lines 171-192) as a state-passing step function:
returns the produced outcome together with the state of the object after the
call.  Python exception semantics: statements after a raised exception do not
run, so on `StopIteration`, `IndexError`, or a sampling error the state
is returned unchanged; on success the increment-and-update logic of
lines 186-190 runs. -/
def SG_next {α : Type} [Inhabited α] (s : SGState α) (o : Oracle) :
    Except Signal (Nat × TaskDataset α) × SGState α :=
  if s.trial_num = s.n_trials then
    (.error .stopIteration, s)
  else
    match s.perm_tasks[s.task_num]? with
    | none => (.error .indexError, s)
    | some task =>
        match get_task_support s.dataset s.n_pos s.n_neg task s.replace
            o.posDraw o.negDraw with
        | .error e => (.error (.sampleError e), s)
        | .ok support =>
            let task_num' := s.task_num + 1
            if task_num' = s.n_tasks then
              (.ok (task, support),
               { s with task_num := 0, perm_tasks := o.perm,
                        trial_num := s.trial_num + 1 })
            else
              (.ok (task, support), { s with task_num := task_num' })

/-- The generator state after `j` advances, the `j`-th advance consuming
oracle `oracle j`.  (Failed advances leave the state unchanged, exactly as in
`SG_next`.) -/
def SG_iter {α : Type} [Inhabited α] (s : SGState α) (oracle : Nat → Oracle) :
    Nat → SGState α
  | 0 => s
  | j + 1 => (SG_next (SG_iter s oracle j) (oracle j)).2

/-- The permutation in force during trial `τ` of a run over `m` tasks:
trial 0 uses the permutation drawn at construction; trial `τ+1` uses the
fresh permutation drawn during the advance that consumed the last task of
trial `τ` (advance number `τ*m + (m-1)`). -/
def permOfTrial (initPerm : List Nat) (oracle : Nat → Oracle) (m : Nat) :
    Nat → List Nat
  | 0 => initPerm
  | τ + 1 => (oracle (τ * m + (m - 1))).perm

/-- Both `np.random.choice` calls of `get_task_support` succeed for these
parameters, whatever the draws: each pool passes the emptiness check and the
without-replacement size check. -/
def supportDrawOK {α : Type} (d : Dataset α) (n_pos n_neg task : Nat)
    (replace : Bool) : Prop :=
  ¬((posPool d task).length = 0 ∧ 0 < n_pos) ∧
  ¬(replace = false ∧ (posPool d task).length < n_pos) ∧
  ¬((negPool d task).length = 0 ∧ 0 < n_neg) ∧
  ¬(replace = false ∧ (negPool d task).length < n_neg)

instance {α : Type} (d : Dataset α) (n_pos n_neg task : Nat) (replace : Bool) :
    Decidable (supportDrawOK d n_pos n_neg task replace) := by
  unfold supportDrawOK; infer_instance

/-- The row of `d`'s task-`t` view at absolute index `i` (with `getD`
defaults, so total). -/
def rowAtD {α : Type} [Inhabited α] (d : Dataset α) (t i : Nat) : TaskRow α :=
  ⟨d.X.getD i default, (colD d.y t).getD i 0, (colD d.w t).getD i 0,
   d.ids.getD i 0⟩

/-! ## Concrete data used to instantiate the theorems -/

/-- 4 samples, 1 task, two positive and two negative labels, all measured. -/
def exBal : Dataset Int := ⟨[10, 20, 30, 40], [[1], [1], [0], [0]],
  [[1], [1], [1], [1]], [0, 1, 2, 3]⟩

/-- 1 sample whose only label is negative: the positive pool is empty. -/
def exNoPos : Dataset Int := ⟨[5], [[0]], [[1]], [7]⟩

/-- 1 sample whose only label is positive: the negative pool is empty,
the positive pool has size 1. -/
def exNoNeg : Dataset Int := ⟨[5], [[1]], [[1]], [7]⟩

/-- 3 samples with a label outside {0,1} and a zero weight in the middle. -/
def exView : Dataset Int := ⟨[10, 20, 30], [[1], [2], [0]], [[1], [0], [5]],
  [7, 8, 9]⟩

/-- A support holding the id 9, used to exclude a row of `exView`. -/
def exSupport : TaskDataset Int := ⟨[30], [0], [5], [9]⟩

/-- 2 samples; the first is positive but weightless on task 0. -/
def exW0 : Dataset Int := ⟨[10, 20], [[1], [0]], [[0], [1]], [3, 4]⟩

/-- 1 sample with zero weight: the task-filtered population is empty. -/
def exAllW0 : Dataset Int := ⟨[10], [[1]], [[0]], [3]⟩

/-- 2 samples, 2 tasks, each task with one positive and one negative row. -/
def exSG2 : Dataset Int := ⟨[1, 2], [[1, 1], [0, 0]], [[1, 1], [1, 1]], [0, 1]⟩

/-- 2 samples, 1 task, one positive and one negative row. -/
def exSG1 : Dataset Int := ⟨[1, 2], [[1], [0]], [[1], [1]], [0, 1]⟩

/-- A constant oracle for single-task generator runs. -/
def orc1 : Nat → Oracle := fun _ => ⟨(fun _ => 0), (fun _ => 0), [0]⟩

/-- A constant oracle for two-task generator runs; every redraw yields the
permutation `[1, 0]`. -/
def orc2 : Nat → Oracle := fun _ => ⟨(fun _ => 0), (fun _ => 0), [1, 0]⟩

/-- A generator over an empty task list with `n_trials = 1`. -/
def sgEmptyTasks : SGState Int := SG_init exSG1 [] 1 1 1 true []

/-- A generator whose first support draw fails (`exNoPos` has no positive
rows but `n_pos = 1`). -/
def sgFailingDraw : SGState Int := SG_init exNoPos [0] 1 1 1 true [0]

/-! ## Basic lemmas about the list-level helpers -/

lemma maskFilter_map {β γ : Type} (f : β → γ) :
    ∀ (m : List Bool) (l : List β),
      maskFilter m (l.map f) = (maskFilter m l).map f := by
  intro m
  induction m with
  | nil => intro l; cases l <;> simp [maskFilter]
  | cons b ms ih =>
      intro l
      cases l with
      | nil => cases b <;> simp [maskFilter]
      | cons x xs => cases b <;> simp [maskFilter, ih]

lemma maskFilter_length_congr {β γ : Type} :
    ∀ (m : List Bool) (as_ : List β) (bs : List γ), as_.length = bs.length →
      (maskFilter m as_).length = (maskFilter m bs).length := by
  intro m
  induction m with
  | nil => intro as_ bs _; cases as_ <;> cases bs <;> simp [maskFilter]
  | cons b ms ih =>
      intro as_ bs h
      cases as_ with
      | nil => cases bs with
        | nil => cases b <;> simp [maskFilter]
        | cons y ys => simp at h
      | cons x xs =>
          cases bs with
          | nil => simp at h
          | cons y ys =>
              simp only [List.length_cons, Nat.add_right_cancel_iff] at h
              cases b <;> simp [maskFilter, ih xs ys h]

lemma maskFilter_self (pw : Int → Bool) :
    ∀ (cs : List Int), maskFilter (cs.map pw) cs = cs.filter pw := by
  intro cs
  induction cs with
  | nil => simp [maskFilter]
  | cons c cs ih =>
      cases h : pw c <;> simp [maskFilter, h, ih, List.filter_cons]

lemma zip4_maps {α : Type} (f1 : Nat → α) (f2 f3 : Nat → Int) (f4 : Nat → Nat) :
    ∀ (I : List Nat),
      zip4 (I.map f1) (I.map f2) (I.map f3) (I.map f4)
        = I.map (fun i => ⟨f1 i, f2 i, f3 i, f4 i⟩) := by
  intro I
  induction I with
  | nil => simp [zip4]
  | cons i I ih => simp [zip4, ih]

lemma zip4_length {α : Type} :
    ∀ (cs : List Int) (as_ : List α) (bs : List Int) (ds : List Nat),
      as_.length = cs.length → bs.length = cs.length → ds.length = cs.length →
      (zip4 as_ bs cs ds).length = cs.length := by
  intro cs
  induction cs with
  | nil =>
      intro as_ bs ds h1 h2 h3
      simp only [List.length_nil, List.length_eq_zero] at h1 h2 h3
      subst h1; subst h2; subst h3; simp [zip4]
  | cons c cs ih =>
      intro as_ bs ds h1 h2 h3
      cases as_ with
      | nil => simp at h1
      | cons a as_ =>
          cases bs with
          | nil => simp at h2
          | cons b bs =>
              cases ds with
              | nil => simp at h3
              | cons dd ds =>
                  simp only [List.length_cons, Nat.add_right_cancel_iff] at h1 h2 h3
                  simp [zip4, ih as_ bs ds h1 h2 h3]

lemma zip4_getD {α : Type} (a0 : α) (r0 : TaskRow α) :
    ∀ (cs : List Int) (as_ : List α) (bs : List Int) (ds : List Nat) (i : Nat),
      as_.length = cs.length → bs.length = cs.length → ds.length = cs.length →
      i < cs.length →
      (zip4 as_ bs cs ds).getD i r0
        = ⟨as_.getD i a0, bs.getD i 0, cs.getD i 0, ds.getD i 0⟩ := by
  intro cs
  induction cs with
  | nil => intro as_ bs ds i _ _ _ hi; simp at hi
  | cons c cs ih =>
      intro as_ bs ds i h1 h2 h3 hi
      cases as_ with
      | nil => simp at h1
      | cons a as_ =>
          cases bs with
          | nil => simp at h2
          | cons b bs =>
              cases ds with
              | nil => simp at h3
              | cons dd ds =>
                  simp only [List.length_cons, Nat.add_right_cancel_iff] at h1 h2 h3
                  cases i with
                  | zero => simp [zip4]
                  | succ i =>
                      simp only [List.length_cons, Nat.succ_lt_succ_iff] at hi
                      simp only [zip4, List.getD_cons_succ]
                      exact ih as_ bs ds i h1 h2 h3 hi

lemma zip4_filter_mask {α : Type} (pw : Int → Bool) :
    ∀ (cs : List Int) (as_ : List α) (bs : List Int) (ds : List Nat),
      as_.length = cs.length → bs.length = cs.length → ds.length = cs.length →
      zip4 (maskFilter (cs.map pw) as_) (maskFilter (cs.map pw) bs)
          (maskFilter (cs.map pw) cs) (maskFilter (cs.map pw) ds)
        = (zip4 as_ bs cs ds).filter (fun r => pw r.wv) := by
  intro cs
  induction cs with
  | nil =>
      intro as_ bs ds h1 h2 h3
      simp only [List.length_nil, List.length_eq_zero] at h1 h2 h3
      subst h1; subst h2; subst h3; simp [zip4, maskFilter]
  | cons c cs ih =>
      intro as_ bs ds h1 h2 h3
      cases as_ with
      | nil => simp at h1
      | cons a as_ =>
          cases bs with
          | nil => simp at h2
          | cons b bs =>
              cases ds with
              | nil => simp at h3
              | cons dd ds =>
                  simp only [List.length_cons, Nat.add_right_cancel_iff] at h1 h2 h3
                  cases h : pw c <;>
                    simp [maskFilter, zip4, h, ih as_ bs ds h1 h2 h3,
                      List.filter_cons]

lemma colD_getD (M : List (List Int)) (t i : Nat) :
    (colD M t).getD i 0 = (M.getD i []).getD t 0 := by
  induction M generalizing i with
  | nil => simp [colD]
  | cons row M ih =>
      cases i with
      | zero => simp [colD]
      | succ i => simpa [colD] using ih i

lemma idxWhere_mem (p : Int → Bool) (xs : List Int) (i : Nat) :
    i ∈ idxWhere p xs ↔ i < xs.length ∧ p (xs.getD i 0) = true := by
  simp [idxWhere, List.mem_filter, List.mem_range]

lemma filter_range'_map {R : Type} (p : R → Bool) (dflt : R) (full : List R)
    (q : Nat → Bool) (hq : ∀ i, i < full.length → q i = p (full.getD i dflt)) :
    ∀ (n k : Nat), k + n = full.length →
      ((List.range' k n).filter q).map (fun i => full.getD i dflt)
        = (full.drop k).filter p := by
  intro n
  induction n with
  | zero =>
      intro k hk
      have hk' : k = full.length := by omega
      subst hk'
      simp [List.range', List.drop_length]
  | succ n ih =>
      intro k hk
      have hklt : k < full.length := by omega
      have hgd : full.getD k dflt = full[k] := List.getD_eq_getElem full dflt hklt
      rw [List.range'_succ, List.drop_eq_getElem_cons hklt, List.filter_cons,
        List.filter_cons, hq k hklt, hgd]
      by_cases hpk : p full[k] = true
      · rw [if_pos hpk, if_pos hpk, List.map_cons, hgd, ih (k + 1) (by omega)]
      · rw [if_neg hpk, if_neg hpk, ih (k + 1) (by omega)]

lemma filter_range_map {R : Type} (p : R → Bool) (dflt : R) (full : List R)
    (q : Nat → Bool) (hq : ∀ i, i < full.length → q i = p (full.getD i dflt)) :
    ((List.range full.length).filter q).map (fun i => full.getD i dflt)
      = full.filter p := by
  have h := filter_range'_map p dflt full q hq full.length 0 (by omega)
  rw [← List.range_eq_range', List.drop_zero] at h
  exact h

/-! ## Characterizations of the selection primitives -/

lemma taskRows_length {α : Type} (d : Dataset α) (t : Nat) (hal : aligned d) :
    (d.taskRows t).length = d.X.length := by
  obtain ⟨hy, hw, hi⟩ := hal
  unfold Dataset.taskRows
  rw [zip4_length (colD d.w t) d.X (colD d.y t) d.ids] <;>
    simp [colD, hy, hw, hi]

lemma rowAtD_eq_getD {α : Type} [Inhabited α] (d : Dataset α) (t i : Nat)
    (hal : aligned d) (hi : i < d.X.length) :
    rowAtD d t i = (d.taskRows t).getD i rowDefault := by
  obtain ⟨hy, hw, hids⟩ := hal
  unfold Dataset.taskRows rowAtD rowDefault
  rw [zip4_getD default ⟨default, 0, 0, 0⟩ (colD d.w t) d.X (colD d.y t) d.ids i] <;>
    simp [colD, hy, hw, hids, hi]

lemma rowAtD_mem {α : Type} [Inhabited α] (d : Dataset α) (t i : Nat)
    (hal : aligned d) (hi : i < d.X.length) :
    rowAtD d t i ∈ d.taskRows t := by
  have hlen : i < (d.taskRows t).length := by rw [taskRows_length d t hal]; exact hi
  rw [rowAtD_eq_getD d t i hal hi, List.getD_eq_getElem _ _ hlen]
  exact List.getElem_mem hlen

/-- The rows of the task view are exactly the task rows of the source with
nonzero weight, in source order. -/
lemma view_rows {α : Type} (d : Dataset α) (t : Nat) (hal : aligned d) :
    (get_task_dataset d t).rows = (d.taskRows t).filter (fun r => r.wv != 0) := by
  obtain ⟨hy, hw, hi⟩ := hal
  have hcol : ∀ (M : List (List Int)),
      colD (maskFilter ((colD d.w t).map (fun v => v != 0)) M) t
        = maskFilter ((colD d.w t).map (fun v => v != 0)) (colD M t) := by
    intro M; unfold colD; rw [maskFilter_map]
  simp only [get_task_dataset, TaskDataset.rows, hcol]
  unfold Dataset.taskRows
  rw [zip4_filter_mask (fun v => v != 0) (colD d.w t) d.X (colD d.y t) d.ids] <;>
    simp [colD, hy, hw, hi]

lemma view_w {α : Type} (d : Dataset α) (t : Nat) :
    (get_task_dataset d t).w = (colD d.w t).filter (fun v => v != 0) := by
  have hcol : colD (maskFilter ((colD d.w t).map (fun v => v != 0)) d.w) t
      = maskFilter ((colD d.w t).map (fun v => v != 0)) (colD d.w t) := by
    unfold colD; rw [maskFilter_map]
  simp only [get_task_dataset, hcol, maskFilter_self]

lemma view_lengths {α : Type} (d : Dataset α) (t : Nat) (hal : aligned d) :
    (get_task_dataset d t).X.length = (get_task_dataset d t).w.length ∧
    (get_task_dataset d t).y.length = (get_task_dataset d t).w.length ∧
    (get_task_dataset d t).ids.length = (get_task_dataset d t).w.length := by
  obtain ⟨hy, hw, hi⟩ := hal
  simp only [get_task_dataset, colD, List.length_map]
  exact ⟨maskFilter_length_congr _ d.X d.w (by rw [hw]),
         maskFilter_length_congr _ d.y d.w (by rw [hy, hw]),
         maskFilter_length_congr _ d.ids d.w (by rw [hi, hw])⟩

lemma np_choice_ok {pop n : Nat} {rep : Bool} (dr : Nat → Nat)
    (h1 : ¬(pop = 0 ∧ 0 < n)) (h2 : ¬(rep = false ∧ pop < n)) :
    np_choice pop n rep dr = .ok ((List.range n).map (fun i => dr i % pop)) := by
  simp [np_choice, h1, h2]

lemma get_task_support_ok {α : Type} [Inhabited α] (d : Dataset α) (p n t : Nat)
    (rep : Bool) (pd nd : Nat → Nat) (h : supportDrawOK d p n t rep) :
    get_task_support d p n t rep pd nd
      = .ok (supportResult d t
          (((List.range p).map (fun i => pd i % (posPool d t).length)).map
            (fun j => (posPool d t).getD j 0))
          (((List.range n).map (fun i => nd i % (negPool d t).length)).map
            (fun j => (negPool d t).getD j 0))) := by
  obtain ⟨h1, h2, h3, h4⟩ := h
  simp only [get_task_support]
  rw [np_choice_ok pd h1 h2, np_choice_ok nd h3 h4]

lemma supportResult_rows {α : Type} [Inhabited α] (d : Dataset α) (t : Nat)
    (P N : List Nat) :
    (supportResult d t P N).rows = (P ++ N).map (fun i => rowAtD d t i) := by
  simp only [supportResult, TaskDataset.rows, gather, ← List.map_append]
  rw [zip4_maps]
  rfl

lemma colD_gather (M : List (List Int)) (t : Nat) (I : List Nat) :
    colD (gather M I) t = gather (colD M t) I := by
  unfold colD gather
  rw [List.map_map]
  refine List.map_congr_left ?_
  intro i _
  simp only [Function.comp_apply]
  exact (colD_getD M t i).symm

lemma filter_swap {β : Type} (l : List β) (p q : β → Bool) :
    (l.filter p).filter q = (l.filter q).filter p := by
  rw [List.filter_filter, List.filter_filter]
  exact List.filter_congr (fun a _ => Bool.and_comm _ _)

/-- The support-excluded view's rows: drop the rows whose id is in the
support, then keep the nonzero-weight ones. -/
lemma minus_support_rows {α : Type} [Inhabited α] (d : Dataset α)
    (s : TaskDataset α) (t : Nat) (hal : aligned d) :
    (get_task_dataset_minus_support d s t).rows
      = ((d.taskRows t).filter (fun r => !(decide (r.id ∈ s.ids)))).filter
          (fun r => r.wv != 0) := by
  obtain ⟨hy, hw, hi⟩ := hal
  simp only [get_task_dataset_minus_support]
  set q : Nat → Bool := fun ind => !(decide (d.ids.getD ind 0 ∈ s.ids)) with hq
  set ninds : List Nat := (List.range (datasetLen d)).filter q with hninds
  set d' : Dataset α :=
    { X := gather d.X ninds, y := gather d.y ninds,
      w := gather d.w ninds, ids := gather d.ids ninds } with hd'
  have hal' : aligned d' := by
    refine ⟨?_, ?_, ?_⟩ <;> simp [hd', gather]
  have hrows' : d'.taskRows t = ninds.map (fun i => rowAtD d t i) := by
    show zip4 d'.X (colD d'.y t) (colD d'.w t) d'.ids = _
    have hX : d'.X = ninds.map (fun i => d.X.getD i default) := rfl
    have hids : d'.ids = ninds.map (fun i => d.ids.getD i 0) := rfl
    have hyc : colD d'.y t = ninds.map (fun i => (colD d.y t).getD i 0) := by
      show colD (gather d.y ninds) t = _
      rw [colD_gather]; rfl
    have hwc : colD d'.w t = ninds.map (fun i => (colD d.w t).getD i 0) := by
      show colD (gather d.w ninds) t = _
      rw [colD_gather]; rfl
    rw [hX, hyc, hwc, hids, zip4_maps]
    rfl
  have htlen : (d.taskRows t).length = d.X.length :=
    taskRows_length d t ⟨hy, hw, hi⟩
  have hmap : ninds.map (fun i => rowAtD d t i)
      = (d.taskRows t).filter (fun r => !(decide (r.id ∈ s.ids))) := by
    have h1 : ninds.map (fun i => rowAtD d t i)
        = ninds.map (fun i => (d.taskRows t).getD i rowDefault) := by
      refine List.map_congr_left ?_
      intro i hiin
      rw [hninds] at hiin
      have hilt : i < d.X.length := by
        have := List.mem_range.mp (List.mem_of_mem_filter hiin)
        simpa [datasetLen] using this
      exact rowAtD_eq_getD d t i ⟨hy, hw, hi⟩ hilt
    rw [h1, hninds]
    have h2 : datasetLen d = (d.taskRows t).length := by
      rw [htlen]; rfl
    rw [h2]
    refine filter_range_map _ rowDefault (d.taskRows t) q ?_
    intro i hilt
    rw [htlen] at hilt
    have hrow : (d.taskRows t).getD i rowDefault = rowAtD d t i :=
      (rowAtD_eq_getD d t i ⟨hy, hw, hi⟩ hilt).symm
    rw [hrow, hq]
    rfl
  rw [view_rows d' t hal', hrows', hmap]

lemma posPool_label {α : Type} (d : Dataset α) (t i : Nat)
    (h : i ∈ posPool d t) : (colD d.y t).getD i 0 = 1 ∧ i < d.y.length := by
  rw [posPool, idxWhere_mem] at h
  refine ⟨beq_iff_eq.mp h.2, ?_⟩
  have := h.1
  simpa [colD] using this

lemma negPool_label {α : Type} (d : Dataset α) (t i : Nat)
    (h : i ∈ negPool d t) : (colD d.y t).getD i 0 = 0 ∧ i < d.y.length := by
  rw [negPool, idxWhere_mem] at h
  refine ⟨beq_iff_eq.mp h.2, ?_⟩
  have := h.1
  simpa [colD] using this

/-- Each selected index (a draw reduced into the pool, then looked up in the
pool) is a member of the pool, provided the pool is nonempty whenever at
least one draw is requested. -/
lemma sel_mem (pool : List Nat) (nn : Nat) (dr : Nat → Nat)
    (h : 0 < nn → pool ≠ []) :
    ∀ x ∈ ((List.range nn).map (fun i => dr i % pool.length)).map
        (fun j => pool.getD j 0), x ∈ pool := by
  intro x hx
  simp only [List.mem_map, List.mem_range] at hx
  obtain ⟨j, ⟨i, hi, rfl⟩, rfl⟩ := hx
  have hpool : pool ≠ [] := h (Nat.pos_of_ne_zero (by omega))
  have hlen : 0 < pool.length := List.length_pos.mpr hpool
  have hlt : dr i % pool.length < pool.length := Nat.mod_lt _ hlen
  rw [List.getD_eq_getElem _ _ hlt]
  exact List.getElem_mem hlt

lemma view_rows_length {α : Type} (d : Dataset α) (t : Nat) (hal : aligned d) :
    (get_task_dataset d t).rows.length = (get_task_dataset d t).X.length := by
  obtain ⟨h1, h2, h3⟩ := view_lengths d t hal
  unfold TaskDataset.rows
  rw [zip4_length (get_task_dataset d t).w (get_task_dataset d t).X
    (get_task_dataset d t).y (get_task_dataset d t).ids h1 h2 h3, h1]

/-! ## Claim C5: the task view -/

/-- C5: for every dataset `D` and task `t`, `task_view(D, t)`
(source: `get_task_dataset`) returns a Dataset containing exactly the rows of
`D` whose weight on column `t` is nonzero, with `y` and `w` reduced to column
`t`, the surviving rows kept in source order (the rows are literally the
`filter` of the source's task rows), its length equal to the count of such
rows and at most `N`. -/
theorem get_task_dataset_spec {α : Type} (d : Dataset α) (t : Nat)
    (hal : aligned d) :
    (get_task_dataset d t).rows = (d.taskRows t).filter (fun r => r.wv != 0) ∧
    (get_task_dataset d t).w = (colD d.w t).filter (fun v => v != 0) ∧
    (get_task_dataset d t).X.length
      = ((colD d.w t).filter (fun v => v != 0)).length ∧
    (get_task_dataset d t).X.length ≤ d.X.length := by
  obtain ⟨hX, _, _⟩ := view_lengths d t hal
  have hXlen : (get_task_dataset d t).X.length
      = ((colD d.w t).filter (fun v => v != 0)).length := by
    rw [hX, view_w d t]
  refine ⟨view_rows d t hal, view_w d t, hXlen, ?_⟩
  rw [hXlen]
  calc ((colD d.w t).filter (fun v => v != 0)).length
      ≤ (colD d.w t).length := List.length_filter_le _ _
    _ = d.X.length := by rw [colD, List.length_map, hal.2.1]

/-- Witness for C5 at `exView` (weights `[1, 0, 5]` on task 0: rows 0 and 2
survive). -/
theorem get_task_dataset_spec_witness :
    aligned exView ∧
    ((get_task_dataset exView 0).rows
        = (exView.taskRows 0).filter (fun r => r.wv != 0) ∧
      (get_task_dataset exView 0).w
        = (colD exView.w 0).filter (fun v => v != 0) ∧
      (get_task_dataset exView 0).X.length
        = ((colD exView.w 0).filter (fun v => v != 0)).length ∧
      (get_task_dataset exView 0).X.length ≤ exView.X.length) :=
  ⟨by decide, get_task_dataset_spec exView 0 (by decide)⟩

/-! ## Claim C6: the support-excluded task view -/

/-- C6: for every dataset `D`, support `S`, task `t`,
`task_view_excluding_support(D, S, t)`
(source: `get_task_dataset_minus_support`) returns no row whose id is in
`S.ids`, and its rows are exactly the rows of `task_view(D, t)` whose ids
avoid `S.ids` (in particular an order-preserving subset of the task view). -/
theorem get_task_dataset_minus_support_spec {α : Type} [Inhabited α]
    (d : Dataset α) (s : TaskDataset α) (t : Nat) (hal : aligned d) :
    (get_task_dataset_minus_support d s t).rows
      = ((get_task_dataset d t).rows).filter (fun r => !(decide (r.id ∈ s.ids))) ∧
    (∀ r_ ∈ (get_task_dataset_minus_support d s t).rows, r_.id ∉ s.ids) ∧
    (get_task_dataset_minus_support d s t).rows.Sublist
      (get_task_dataset d t).rows := by
  have hmain : (get_task_dataset_minus_support d s t).rows
      = ((get_task_dataset d t).rows).filter (fun r => !(decide (r.id ∈ s.ids))) := by
    rw [minus_support_rows d s t hal, view_rows d t hal, filter_swap]
  refine ⟨hmain, ?_, ?_⟩
  · intro r_ hr
    rw [hmain] at hr
    have := List.of_mem_filter hr
    simpa using this
  · rw [hmain]
    exact List.filter_sublist _

/-- Witness for C6 at `exView` with the support `exSupport` (the support
holds id 9, so the surviving rows are those of the view with ids 7; id 8 is
dropped by the weight filter). -/
theorem get_task_dataset_minus_support_spec_witness :
    aligned exView ∧
    ((get_task_dataset_minus_support exView exSupport 0).rows
        = ((get_task_dataset exView 0).rows).filter
            (fun r => !(decide (r.id ∈ exSupport.ids))) ∧
      (∀ r_ ∈ (get_task_dataset_minus_support exView exSupport 0).rows,
        r_.id ∉ exSupport.ids) ∧
      (get_task_dataset_minus_support exView exSupport 0).rows.Sublist
        (get_task_dataset exView 0).rows) :=
  ⟨by decide, get_task_dataset_minus_support_spec exView exSupport 0 (by decide)⟩

/-! ## Claim C3: the balanced support -/

/-- C3 (amended): with `replace = True` and each requested pool nonempty
(`0 < p` needs a positive row, `0 < n` a negative row — without these the
draw raises the errors covered by C7 instead of returning a dataset),
`balanced_task_support(D, p, n, t, True)` (source: `get_task_support`)
returns a dataset of exactly `p + n` rows whose collapsed 1-D `y` is `p` ones
followed by `n` zeros (so the first `p` rows carry label 1 on `t` and the
last `n` label 0), and every returned row is a task row of `D` with label 0
or 1 — rows with labels outside {0, 1} never appear. -/
theorem get_task_support_balanced {α : Type} [Inhabited α] (d : Dataset α)
    (p n t : Nat) (pd nd : Nat → Nat) (hal : aligned d)
    (hp : 0 < p → posPool d t ≠ []) (hn : 0 < n → negPool d t ≠ []) :
    ∃ r : TaskDataset α, get_task_support d p n t true pd nd = Except.ok r ∧
      r.X.length = p + n ∧ r.y.length = p + n ∧ r.w.length = p + n ∧
      r.ids.length = p + n ∧
      r.y = List.replicate p 1 ++ List.replicate n 0 ∧
      (∀ row ∈ r.rows, row ∈ d.taskRows t ∧ (row.yv = 1 ∨ row.yv = 0)) := by
  have hok : supportDrawOK d p n t true := by
    refine ⟨?_, by simp, ?_, by simp⟩
    · rintro ⟨h0, hpos⟩
      exact hp hpos (List.length_eq_zero.mp h0)
    · rintro ⟨h0, hpos⟩
      exact hn hpos (List.length_eq_zero.mp h0)
  rw [get_task_support_ok d p n t true pd nd hok]
  set P : List Nat := ((List.range p).map (fun i => pd i % (posPool d t).length)).map
    (fun j => (posPool d t).getD j 0) with hP
  set N : List Nat := ((List.range n).map (fun i => nd i % (negPool d t).length)).map
    (fun j => (negPool d t).getD j 0) with hN
  have hPmem : ∀ x ∈ P, x ∈ posPool d t := by
    rw [hP]; exact sel_mem (posPool d t) p pd hp
  have hNmem : ∀ x ∈ N, x ∈ negPool d t := by
    rw [hN]; exact sel_mem (negPool d t) n nd hn
  have hPlen : P.length = p := by simp [hP]
  have hNlen : N.length = n := by simp [hN]
  refine ⟨supportResult d t P N, rfl, ?_, ?_, ?_, ?_, ?_, ?_⟩
  · simp [supportResult, gather, hPlen, hNlen]
  · simp [supportResult, gather, hPlen, hNlen]
  · simp [supportResult, gather, hPlen, hNlen]
  · simp [supportResult, gather, hPlen, hNlen]
  · have h1 : gather (colD d.y t) P = List.replicate p 1 := by
      rw [List.eq_replicate_iff]
      constructor
      · simp [gather, hPlen]
      · intro b hb
        simp only [gather, List.mem_map] at hb
        obtain ⟨i, hiP, rfl⟩ := hb
        exact (posPool_label d t i (hPmem i hiP)).1
    have h2 : gather (colD d.y t) N = List.replicate n 0 := by
      rw [List.eq_replicate_iff]
      constructor
      · simp [gather, hNlen]
      · intro b hb
        simp only [gather, List.mem_map] at hb
        obtain ⟨i, hiN, rfl⟩ := hb
        exact (negPool_label d t i (hNmem i hiN)).1
    show gather (colD d.y t) P ++ gather (colD d.y t) N = _
    rw [h1, h2]
  · intro row hrow
    rw [supportResult_rows] at hrow
    simp only [List.mem_map, List.mem_append] at hrow
    obtain ⟨i, hi, rfl⟩ := hrow
    have hiy : (colD d.y t).getD i 0 = 1 ∨ (colD d.y t).getD i 0 = 0 := by
      rcases hi with hi | hi
      · exact Or.inl (posPool_label d t i (hPmem i hi)).1
      · exact Or.inr (negPool_label d t i (hNmem i hi)).1
    have hilt : i < d.X.length := by
      have hy := hal.1
      rcases hi with hi | hi
      · have h := (posPool_label d t i (hPmem i hi)).2
        omega
      · have h := (negPool_label d t i (hNmem i hi)).2
        omega
    exact ⟨rowAtD_mem d t i hal hilt, hiy⟩

/-- Witness for C3 at `exBal` with `p = 1`, `n = 2`. -/
theorem get_task_support_balanced_witness :
    aligned exBal ∧ posPool exBal 0 ≠ [] ∧ negPool exBal 0 ≠ [] ∧
    (∃ r : TaskDataset Int,
      get_task_support exBal 1 2 0 true (fun _ => 0) (fun _ => 0)
        = Except.ok r ∧
      r.X.length = 1 + 2 ∧ r.y.length = 1 + 2 ∧ r.w.length = 1 + 2 ∧
      r.ids.length = 1 + 2 ∧
      r.y = List.replicate 1 1 ++ List.replicate 2 0 ∧
      (∀ row ∈ r.rows, row ∈ exBal.taskRows 0 ∧ (row.yv = 1 ∨ row.yv = 0))) :=
  ⟨by decide, by decide, by decide,
    get_task_support_balanced exBal 1 2 0 (fun _ => 0) (fun _ => 0) (by decide)
      (fun _ => by decide) (fun _ => by decide)⟩

/-- C3 counterexample: `exNoPos` has no row with label 1 on task 0, so with
`p = 1`, `n = 0`, `replace = True` the call raises `EmptyPool` and returns no
dataset at all — the claim's unconditional "returns a Dataset of exactly
`p + n` rows for every dataset" fails. -/
theorem get_task_support_balanced_counterexample :
    get_task_support exNoPos 1 0 0 true (fun _ => 0) (fun _ => 0)
      = Except.error SampleError.emptyPool ∧
    ¬∃ r : TaskDataset Int,
        get_task_support exNoPos 1 0 0 true (fun _ => 0) (fun _ => 0)
          = Except.ok r := by
  have h : get_task_support exNoPos 1 0 0 true (fun _ => 0) (fun _ => 0)
      = Except.error SampleError.emptyPool := rfl
  refine ⟨h, ?_⟩
  rintro ⟨r, hr⟩
  rw [h] at hr
  exact Except.noConfusion hr

/-! ## Claim C8: the random task batch -/

/-- C8 (amended): `random_task_batch(D, b, t, r)` (source: `get_task_test`)
draws `b` row indices from the task-filtered view (here: any oracle outcome,
reduced into the population) and, when the draw passes `np.random.choice`'s
checks, returns the corresponding slice of the view — exactly the view rows
at the drawn indices, so of length `b`, with `y`/`w` squeezed to 1-D and every
returned row a row of the view.  With `r = false` and `b` exceeding a
*nonempty* filtered population it fails with `InsufficientSamples`; an empty
filtered population with `0 < b` fails with `EmptyPool` instead (numpy checks
emptiness first), which is where the original claim's failure clause breaks. -/
theorem get_task_test_spec {α : Type} [Inhabited α] (d : Dataset α)
    (b t : Nat) (rep : Bool) (dr : Nat → Nat) (hal : aligned d) :
    (¬((get_task_dataset d t).X.length = 0 ∧ 0 < b) →
      ¬(rep = false ∧ (get_task_dataset d t).X.length < b) →
      ∃ r : TaskDataset α, get_task_test d b t rep dr = Except.ok r ∧
        r.rows = ((List.range b).map
            (fun i => dr i % (get_task_dataset d t).X.length)).map
          (fun i => (get_task_dataset d t).rows.getD i rowDefault) ∧
        r.X.length = b ∧ r.y.length = b ∧ r.w.length = b ∧ r.ids.length = b ∧
        (∀ row ∈ r.rows, row ∈ (get_task_dataset d t).rows)) ∧
    (rep = false → 0 < (get_task_dataset d t).X.length →
      (get_task_dataset d t).X.length < b →
      get_task_test d b t rep dr = Except.error SampleError.insufficientSamples) ∧
    ((get_task_dataset d t).X.length = 0 → 0 < b →
      get_task_test d b t rep dr = Except.error SampleError.emptyPool) := by
  obtain ⟨hvX, hvy, hvids⟩ := view_lengths d t hal
  have hvrl := view_rows_length d t hal
  refine ⟨?_, ?_, ?_⟩
  · intro h1 h2
    have h1' : ¬((maskFilter ((colD d.w t).map (fun v => v != 0)) d.X).length
        = 0 ∧ 0 < b) := h1
    have h2' : ¬(rep = false ∧
        (maskFilter ((colD d.w t).map (fun v => v != 0)) d.X).length < b) := h2
    simp only [get_task_test]
    rw [np_choice_ok dr h1' h2']
    set pop : Nat := (get_task_dataset d t).X.length with hpop
    set inds : List Nat := (List.range b).map (fun i => dr i % pop) with hinds
    have hindlt : ∀ i ∈ inds, i < pop := by
      intro i hi
      rw [hinds] at hi
      simp only [List.mem_map, List.mem_range] at hi
      obtain ⟨j, hj, rfl⟩ := hi
      have hpop0 : pop ≠ 0 := fun h0 => h1 ⟨h0, by omega⟩
      exact Nat.mod_lt _ (Nat.pos_of_ne_zero hpop0)
    have hrows : (TaskDataset.rows
        { X := gather (get_task_dataset d t).X inds,
          y := colD (gather (maskFilter ((colD d.w t).map (fun v => v != 0)) d.y) inds) t,
          w := colD (gather (maskFilter ((colD d.w t).map (fun v => v != 0)) d.w) inds) t,
          ids := gather (get_task_dataset d t).ids inds })
        = inds.map (fun i => (get_task_dataset d t).rows.getD i rowDefault) := by
      show zip4 (gather (get_task_dataset d t).X inds)
          (colD (gather (maskFilter ((colD d.w t).map (fun v => v != 0)) d.y) inds) t)
          (colD (gather (maskFilter ((colD d.w t).map (fun v => v != 0)) d.w) inds) t)
          (gather (get_task_dataset d t).ids inds) = _
      rw [colD_gather, colD_gather]
      have hy2 : gather (colD (maskFilter ((colD d.w t).map (fun v => v != 0)) d.y) t)
          inds = inds.map (fun i => (get_task_dataset d t).y.getD i 0) := rfl
      have hw2 : gather (colD (maskFilter ((colD d.w t).map (fun v => v != 0)) d.w) t)
          inds = inds.map (fun i => (get_task_dataset d t).w.getD i 0) := rfl
      rw [hy2, hw2]
      have hX2 : gather (get_task_dataset d t).X inds
          = inds.map (fun i => (get_task_dataset d t).X.getD i default) := rfl
      have hids2 : gather (get_task_dataset d t).ids inds
          = inds.map (fun i => (get_task_dataset d t).ids.getD i 0) := rfl
      rw [hX2, hids2, zip4_maps]
      refine List.map_congr_left ?_
      intro i hiin
      have hilt : i < (get_task_dataset d t).w.length := by
        have := hindlt i hiin
        omega
      exact (zip4_getD default rowDefault (get_task_dataset d t).w
        (get_task_dataset d t).X (get_task_dataset d t).y
        (get_task_dataset d t).ids i hvX hvy hvids hilt).symm
    refine ⟨TaskDataset.mk (gather (get_task_dataset d t).X inds)
        (colD (gather (maskFilter ((colD d.w t).map (fun v => v != 0)) d.y)
          inds) t)
        (colD (gather (maskFilter ((colD d.w t).map (fun v => v != 0)) d.w)
          inds) t)
        (gather (get_task_dataset d t).ids inds),
      rfl, hrows, ?_, ?_, ?_, ?_, ?_⟩
    · simp [gather, hinds]
    · simp [colD, gather, hinds]
    · simp [colD, gather, hinds]
    · simp [gather, hinds]
    · intro row hrow
      rw [hrows] at hrow
      simp only [List.mem_map] at hrow
      obtain ⟨i, hiin, rfl⟩ := hrow
      have hilt : i < (get_task_dataset d t).rows.length := by
        have := hindlt i hiin
        omega
      rw [List.getD_eq_getElem _ _ hilt]
      exact List.getElem_mem hilt
  · intro hrep hpos hlt
    have hcond1 : ¬((maskFilter ((colD d.w t).map (fun v => v != 0)) d.X).length
        = 0 ∧ 0 < b) := by
      intro hc
      have : (get_task_dataset d t).X.length = 0 := hc.1
      omega
    have hcond2 : rep = false ∧
        (maskFilter ((colD d.w t).map (fun v => v != 0)) d.X).length < b :=
      ⟨hrep, hlt⟩
    simp only [get_task_test, np_choice, if_neg hcond1, if_pos hcond2]
  · intro h0 hb
    have hcond1 : (maskFilter ((colD d.w t).map (fun v => v != 0)) d.X).length
        = 0 ∧ 0 < b := ⟨h0, hb⟩
    simp only [get_task_test, np_choice, if_pos hcond1]

/-- Witness for C8 at `exView` with `b = 2`, `replace = true`. -/
theorem get_task_test_spec_witness :
    aligned exView ∧
    (∃ r : TaskDataset Int, get_task_test exView 2 0 true (fun i => i)
        = Except.ok r ∧
      r.rows = ((List.range 2).map
          (fun i => i % (get_task_dataset exView 0).X.length)).map
        (fun i => (get_task_dataset exView 0).rows.getD i rowDefault) ∧
      r.X.length = 2 ∧ r.y.length = 2 ∧ r.w.length = 2 ∧ r.ids.length = 2 ∧
      (∀ row ∈ r.rows, row ∈ (get_task_dataset exView 0).rows)) :=
  ⟨by decide,
    (get_task_test_spec exView 2 0 true (fun i => i) (by decide)).1
      (by decide) (by decide)⟩

/-- C8 counterexample: `exAllW0`'s only row has zero weight on task 0, so the
filtered population is empty; with `b = 1 > 0` and `replace = False` the call
fails with `EmptyPool`, not with the `InsufficientSamples` the claim requires
for "`r` false and `b` exceeds the filtered population". -/
theorem get_task_test_empty_population_counterexample :
    get_task_test exAllW0 1 0 false (fun _ => 0)
      = Except.error SampleError.emptyPool ∧
    (get_task_dataset exAllW0 0).X.length = 0 ∧
    get_task_test exAllW0 1 0 false (fun _ => 0)
      ≠ Except.error SampleError.insufficientSamples := by
  have h : get_task_test exAllW0 1 0 false (fun _ => 0)
      = Except.error SampleError.emptyPool := rfl
  refine ⟨h, by decide, ?_⟩
  intro hc
  rw [h] at hc
  simp at hc

/-! ## Claim C7: error conditions of the balanced support -/

/-- C7 (amended): the two `np.random.choice` calls check the positive pool
first, and within each call the emptiness check precedes the
without-replacement size check.  Hence `EmptyPool` is raised iff the positive
pool is empty with `0 < p`, or the positive draw passes both checks and the
negative pool is empty with `0 < n`; `InsufficientSamples` is raised iff
`replace = false` and a pool is too small for its count, the pool being
nonempty in the positive case and the positive draw passing and the negative
pool nonempty in the negative case.  (The original claim's "EmptyPool exactly
when a pool is empty with nonzero count" fails when an `InsufficientSamples`
failure on the positive pool shadows an empty negative pool.)  Requesting
`p = n = 0` succeeds with a length-0 support. -/
theorem get_task_support_error_spec {α : Type} [Inhabited α] (d : Dataset α)
    (p n t : Nat) (rep : Bool) (pd nd : Nat → Nat) :
    (get_task_support d p n t rep pd nd = Except.error SampleError.emptyPool ↔
      ((posPool d t).length = 0 ∧ 0 < p) ∨
      (¬((posPool d t).length = 0 ∧ 0 < p) ∧
        ¬(rep = false ∧ (posPool d t).length < p) ∧
        ((negPool d t).length = 0 ∧ 0 < n))) ∧
    (get_task_support d p n t rep pd nd
        = Except.error SampleError.insufficientSamples ↔
      (¬((posPool d t).length = 0 ∧ 0 < p) ∧
        (rep = false ∧ (posPool d t).length < p)) ∨
      (¬((posPool d t).length = 0 ∧ 0 < p) ∧
        ¬(rep = false ∧ (posPool d t).length < p) ∧
        ¬((negPool d t).length = 0 ∧ 0 < n) ∧
        (rep = false ∧ (negPool d t).length < n))) ∧
    (p = 0 → n = 0 → ∃ r : TaskDataset α,
      get_task_support d p n t rep pd nd = Except.ok r ∧
      r.X = [] ∧ r.y = [] ∧ r.w = [] ∧ r.ids = []) := by
  by_cases hPE : (posPool d t).length = 0 ∧ 0 < p
  · have hres : get_task_support d p n t rep pd nd
        = Except.error SampleError.emptyPool := by
      simp only [get_task_support, np_choice, if_pos hPE]
    refine ⟨?_, ?_, ?_⟩
    · rw [hres]; exact ⟨fun _ => Or.inl hPE, fun _ => rfl⟩
    · rw [hres]
      constructor
      · intro h; exact absurd h (by simp)
      · intro h
        rcases h with ⟨hne, _⟩ | ⟨hne, _⟩ <;> exact absurd hPE hne
    · intro hp0 _
      rw [hp0] at hPE
      exact absurd hPE.2 (by omega)
  · by_cases hPI : rep = false ∧ (posPool d t).length < p
    · have hres : get_task_support d p n t rep pd nd
          = Except.error SampleError.insufficientSamples := by
        simp only [get_task_support, np_choice, if_neg hPE, if_pos hPI]
      refine ⟨?_, ?_, ?_⟩
      · rw [hres]
        constructor
        · intro h; exact absurd h (by simp)
        · intro h
          rcases h with hpe | ⟨_, hnpi, _⟩
          · exact absurd hpe hPE
          · exact absurd hPI hnpi
      · rw [hres]; exact ⟨fun _ => Or.inl ⟨hPE, hPI⟩, fun _ => rfl⟩
      · intro hp0 _
        rw [hp0] at hPI
        exact absurd hPI.2 (by omega)
    · by_cases hNE : (negPool d t).length = 0 ∧ 0 < n
      · have hres : get_task_support d p n t rep pd nd
            = Except.error SampleError.emptyPool := by
          simp only [get_task_support, np_choice, if_neg hPE, if_neg hPI,
            if_pos hNE]
        refine ⟨?_, ?_, ?_⟩
        · rw [hres]; exact ⟨fun _ => Or.inr ⟨hPE, hPI, hNE⟩, fun _ => rfl⟩
        · rw [hres]
          constructor
          · intro h; exact absurd h (by simp)
          · intro h
            rcases h with ⟨_, hpi⟩ | ⟨_, _, hnne, _⟩
            · exact absurd hpi hPI
            · exact absurd hNE hnne
        · intro _ hn0
          rw [hn0] at hNE
          exact absurd hNE.2 (by omega)
      · by_cases hNI : rep = false ∧ (negPool d t).length < n
        · have hres : get_task_support d p n t rep pd nd
              = Except.error SampleError.insufficientSamples := by
            simp only [get_task_support, np_choice, if_neg hPE, if_neg hPI,
              if_neg hNE, if_pos hNI]
          refine ⟨?_, ?_, ?_⟩
          · rw [hres]
            constructor
            · intro h; exact absurd h (by simp)
            · intro h
              rcases h with hpe | ⟨_, _, hne⟩
              · exact absurd hpe hPE
              · exact absurd hne hNE
          · rw [hres]
            exact ⟨fun _ => Or.inr ⟨hPE, hPI, hNE, hNI⟩, fun _ => rfl⟩
          · intro _ hn0
            rw [hn0] at hNI
            exact absurd hNI.2 (by omega)
        · have hres : get_task_support d p n t rep pd nd
              = Except.ok (supportResult d t
                (((List.range p).map (fun i => pd i % (posPool d t).length)).map
                  (fun j => (posPool d t).getD j 0))
                (((List.range n).map (fun i => nd i % (negPool d t).length)).map
                  (fun j => (negPool d t).getD j 0))) :=
            get_task_support_ok d p n t rep pd nd ⟨hPE, hPI, hNE, hNI⟩
          refine ⟨?_, ?_, ?_⟩
          · rw [hres]
            constructor
            · intro h; exact absurd h (by simp)
            · intro h
              rcases h with hpe | ⟨_, _, hne⟩
              · exact absurd hpe hPE
              · exact absurd hne hNE
          · rw [hres]
            constructor
            · intro h; exact absurd h (by simp)
            · intro h
              rcases h with ⟨_, hpi⟩ | ⟨_, _, _, hni⟩
              · exact absurd hpi hPI
              · exact absurd hni hNI
          · intro hp0 hn0
            subst hp0; subst hn0
            refine ⟨_, hres, ?_, ?_, ?_, ?_⟩ <;> simp [supportResult, gather]

/-- Witness for C7 at `exBal` with `p = n = 0` (and the `EmptyPool` iff
instantiated at `exNoPos`, `p = 1`). -/
theorem get_task_support_error_spec_witness :
    (∃ r : TaskDataset Int,
      get_task_support exBal 0 0 0 true (fun _ => 0) (fun _ => 0)
        = Except.ok r ∧ r.X = [] ∧ r.y = [] ∧ r.w = [] ∧ r.ids = []) ∧
    get_task_support exNoPos 1 0 0 true (fun _ => 0) (fun _ => 0)
      = Except.error SampleError.emptyPool :=
  ⟨(get_task_support_error_spec exBal 0 0 0 true (fun _ => 0)
      (fun _ => 0)).2.2 rfl rfl,
   ((get_task_support_error_spec exNoPos 1 0 0 true (fun _ => 0)
      (fun _ => 0)).1).mpr (Or.inl (by decide))⟩

/-- C7 counterexample: over `exNoNeg` (positive pool of size 1, empty
negative pool) with `p = 2`, `n = 1`, `replace = False`, the call fails with
`InsufficientSamples` — yet a pool (the negative one) is empty with a nonzero
requested count, so the claim's "fails with EmptyPool exactly when a pool is
empty and its requested count is nonzero" is false in the right-to-left
direction. -/
theorem get_task_support_error_precedence_counterexample :
    get_task_support exNoNeg 2 1 0 false (fun _ => 0) (fun _ => 0)
      = Except.error SampleError.insufficientSamples ∧
    (negPool exNoNeg 0).length = 0 ∧ 0 < 1 ∧
    get_task_support exNoNeg 2 1 0 false (fun _ => 0) (fun _ => 0)
      ≠ Except.error SampleError.emptyPool := by
  refine ⟨rfl, by decide, by decide, ?_⟩
  intro h
  have h' : get_task_support exNoNeg 2 1 0 false (fun _ => 0) (fun _ => 0)
      = Except.error SampleError.insufficientSamples := rfl
  rw [h'] at h
  simp at h

/-! ## Generator lemmas -/

lemma SG_next_stop {α : Type} [Inhabited α] (s : SGState α) (o : Oracle)
    (h : s.trial_num = s.n_trials) :
    SG_next s o = (Except.error Signal.stopIteration, s) := by
  simp only [SG_next, if_pos h]

lemma SG_next_dataset {α : Type} [Inhabited α] (s : SGState α) (o : Oracle) :
    (SG_next s o).2.dataset = s.dataset := by
  unfold SG_next
  split
  · rfl
  · split
    · rfl
    · split
      · rfl
      · dsimp only
        split
        · rfl
        · rfl

lemma SG_iter_dataset {α : Type} [Inhabited α] (s : SGState α)
    (oracle : Nat → Oracle) (j : Nat) :
    (SG_iter s oracle j).dataset = s.dataset := by
  induction j with
  | zero => rfl
  | succ j ih =>
      show (SG_next (SG_iter s oracle j) (oracle j)).2.dataset = s.dataset
      rw [SG_next_dataset, ih]

lemma permOfTrial_perm (tasks initPerm : List Nat) (oracle : Nat → Oracle)
    (m : Nat) (hperm0 : initPerm.Perm tasks)
    (hperms : ∀ j, ((oracle j).perm).Perm tasks) :
    ∀ τ, (permOfTrial initPerm oracle m τ).Perm tasks := by
  intro τ
  cases τ with
  | zero => exact hperm0
  | succ τ => exact hperms _

/-- One successful advance from a mid-run state: the yielded task is the
permutation's entry at the cursor, and the increment-and-update logic of
lines 186-190 runs. -/
lemma SG_next_run {α : Type} [Inhabited α] (d : Dataset α) (tasks : List Nat)
    (p n k : Nat) (rep : Bool) (perm : List Nat) (tn trn : Nat) (o : Oracle)
    (htrn : trn ≠ k) (hperm : perm.Perm tasks) (htn : tn < tasks.length)
    (hok : ∀ t ∈ tasks, supportDrawOK d p n t rep) :
    ∃ sup, SG_next (SGState.mk d tasks tasks.length p n k rep perm tn trn) o
      = (Except.ok (perm.getD tn 0, sup),
         SGState.mk d tasks tasks.length p n k rep
           (if tn + 1 = tasks.length then o.perm else perm)
           (if tn + 1 = tasks.length then 0 else tn + 1)
           (if tn + 1 = tasks.length then trn + 1 else trn)) := by
  have hlen : perm.length = tasks.length := hperm.length_eq
  have htn' : tn < perm.length := by omega
  have hsome : perm[tn]? = some perm[tn] := List.getElem?_eq_getElem htn'
  have htmem : perm[tn] ∈ tasks := hperm.mem_iff.mp (List.getElem_mem htn')
  have hsup := get_task_support_ok d p n perm[tn] rep o.posDraw o.negDraw
    (hok _ htmem)
  have hgd : perm.getD tn 0 = perm[tn] := List.getD_eq_getElem _ _ htn'
  refine ⟨supportResult d (perm.get ⟨tn, htn'⟩)
      (((List.range p).map
          (fun i => o.posDraw i % (posPool d (perm.get ⟨tn, htn'⟩)).length)).map
        (fun j => (posPool d (perm.get ⟨tn, htn'⟩)).getD j 0))
      (((List.range n).map
          (fun i => o.negDraw i % (negPool d (perm.get ⟨tn, htn'⟩)).length)).map
        (fun j => (negPool d (perm.get ⟨tn, htn'⟩)).getD j 0)), ?_⟩
  simp only [SG_next, if_neg htrn]
  rw [hsome]
  dsimp only
  rw [hsup, hgd]
  dsimp only
  by_cases h1 : tn + 1 = tasks.length
  · rw [if_pos h1, if_pos h1, if_pos h1, if_pos h1]
    rfl
  · rw [if_neg h1, if_neg h1, if_neg h1, if_neg h1]
    rfl

/-- The generator state after `j ≤ k*m` advances of a well-formed run over
`m ≥ 1` tasks: cursor `j % m`, completed trials `j / m`, and the permutation
of trial `j / m` installed. -/
lemma SG_iter_run {α : Type} [Inhabited α] (d : Dataset α) (tasks : List Nat)
    (p n k : Nat) (rep : Bool) (initPerm : List Nat) (oracle : Nat → Oracle)
    (hm : 0 < tasks.length) (hperm0 : initPerm.Perm tasks)
    (hperms : ∀ j, ((oracle j).perm).Perm tasks)
    (hok : ∀ t ∈ tasks, supportDrawOK d p n t rep) :
    ∀ j, j ≤ k * tasks.length →
      SG_iter (SG_init d tasks p n k rep initPerm) oracle j
        = SGState.mk d tasks tasks.length p n k rep
            (permOfTrial initPerm oracle tasks.length (j / tasks.length))
            (j % tasks.length) (j / tasks.length) := by
  intro j
  induction j with
  | zero =>
      intro _
      rw [Nat.zero_mod, Nat.zero_div]
      rfl
  | succ j ih =>
      intro hj1
      have hjlt : j < k * tasks.length := by omega
      have hstate := ih (by omega)
      have htrn : j / tasks.length ≠ k := by
        have := (Nat.div_lt_iff_lt_mul hm).mpr hjlt
        omega
      obtain ⟨sup, hstep⟩ := SG_next_run d tasks p n k rep
        (permOfTrial initPerm oracle tasks.length (j / tasks.length))
        (j % tasks.length) (j / tasks.length) (oracle j) htrn
        (permOfTrial_perm tasks initPerm oracle tasks.length hperm0 hperms _)
        (Nat.mod_lt _ hm) hok
      show (SG_next (SG_iter (SG_init d tasks p n k rep initPerm) oracle j)
        (oracle j)).2 = _
      rw [hstate, hstep]
      have hdm := Nat.div_add_mod j tasks.length
      by_cases hlast : j % tasks.length + 1 = tasks.length
      · have hmul : j + 1 = tasks.length * (j / tasks.length + 1) := by
          rw [Nat.mul_succ]
          omega
        have hj1m : (j + 1) % tasks.length = 0 := by
          rw [hmul, Nat.mul_mod_right]
        have hj1d : (j + 1) / tasks.length = j / tasks.length + 1 := by
          rw [hmul, Nat.mul_div_cancel_left _ hm]
        have hpt : permOfTrial initPerm oracle tasks.length
            (j / tasks.length + 1) = (oracle j).perm := by
          show (oracle (j / tasks.length * tasks.length
            + (tasks.length - 1))).perm = _
          have hc : tasks.length * (j / tasks.length)
              = j / tasks.length * tasks.length := Nat.mul_comm _ _
          have hj : j / tasks.length * tasks.length + (tasks.length - 1) = j := by
            omega
          rw [hj]
        rw [if_pos hlast, if_pos hlast, if_pos hlast, hj1m, hj1d, hpt]
      · have hlt : j % tasks.length + 1 < tasks.length := by
          have := Nat.mod_lt j hm
          omega
        have hc : tasks.length * (j / tasks.length)
            = j / tasks.length * tasks.length := Nat.mul_comm _ _
        have hsplit : j + 1 = (j % tasks.length + 1)
            + (j / tasks.length) * tasks.length := by
          omega
        have hj1m : (j + 1) % tasks.length = j % tasks.length + 1 := by
          rw [hsplit, Nat.add_mul_mod_self_right, Nat.mod_eq_of_lt hlt]
        have hj1d : (j + 1) / tasks.length = j / tasks.length := by
          rw [hsplit, Nat.add_mul_div_right _ _ hm, Nat.div_eq_of_lt hlt,
            Nat.zero_add]
        rw [if_neg hlast, if_neg hlast, if_neg hlast, hj1m, hj1d]

/-- Once `k*m` advances have happened, further advances leave the state
unchanged (each raises `StopIteration`). -/
lemma SG_iter_frozen {α : Type} [Inhabited α] (d : Dataset α)
    (tasks : List Nat) (p n k : Nat) (rep : Bool) (initPerm : List Nat)
    (oracle : Nat → Oracle) (hm : 0 < tasks.length)
    (hperm0 : initPerm.Perm tasks)
    (hperms : ∀ j, ((oracle j).perm).Perm tasks)
    (hok : ∀ t ∈ tasks, supportDrawOK d p n t rep) :
    ∀ i, SG_iter (SG_init d tasks p n k rep initPerm) oracle
        (k * tasks.length + i)
      = SG_iter (SG_init d tasks p n k rep initPerm) oracle
        (k * tasks.length) := by
  have hkm : (k * tasks.length) / tasks.length = k :=
    Nat.mul_div_cancel k hm
  have hstop : (SG_iter (SG_init d tasks p n k rep initPerm) oracle
      (k * tasks.length)).trial_num
      = (SG_iter (SG_init d tasks p n k rep initPerm) oracle
        (k * tasks.length)).n_trials := by
    rw [SG_iter_run d tasks p n k rep initPerm oracle hm hperm0 hperms hok
      (k * tasks.length) (Nat.le_refl _)]
    exact hkm
  intro i
  induction i with
  | zero => rfl
  | succ i ih =>
      show (SG_next (SG_iter (SG_init d tasks p n k rep initPerm) oracle
        (k * tasks.length + i)) (oracle (k * tasks.length + i))).2 = _
      rw [ih, SG_next_stop _ _ hstop]

/-! ## Claim C1: exhaustion after exactly k*m yields -/

/-- C1 (amended): over `m = tasks.length` tasks with `n_trials = k`, provided
`m ≥ 1` or `k = 0`, and provided every per-task support draw passes its
checks (the oracle permutations being permutations of `tasks`), the `j`-th
advance yields a `(task, support)` pair for every `j < k*m` and raises
`StopIteration` for every `j ≥ k*m` — exactly `k*m` pairs, then exhaustion
forever; `k = 0` is exhausted immediately.  (For `m = 0` and `k ≥ 1` the
claim fails: the first advance raises an `IndexError`, see the
counterexample.) -/
theorem supportGenerator_exhaustion {α : Type} [Inhabited α] (d : Dataset α)
    (tasks : List Nat) (p n k : Nat) (rep : Bool) (initPerm : List Nat)
    (oracle : Nat → Oracle) (hm : 0 < tasks.length ∨ k = 0)
    (hperm0 : initPerm.Perm tasks)
    (hperms : ∀ j, ((oracle j).perm).Perm tasks)
    (hok : ∀ t ∈ tasks, supportDrawOK d p n t rep) :
    (∀ j, j < k * tasks.length →
      ∃ pair : Nat × TaskDataset α,
        (SG_next (SG_iter (SG_init d tasks p n k rep initPerm) oracle j)
          (oracle j)).1 = Except.ok pair) ∧
    (∀ j, k * tasks.length ≤ j →
      (SG_next (SG_iter (SG_init d tasks p n k rep initPerm) oracle j)
        (oracle j)).1 = Except.error Signal.stopIteration) := by
  rcases hm with hm | hk0
  · constructor
    · intro j hj
      rw [SG_iter_run d tasks p n k rep initPerm oracle hm hperm0 hperms hok
        j (Nat.le_of_lt hj)]
      have htrn : j / tasks.length ≠ k := by
        have := (Nat.div_lt_iff_lt_mul hm).mpr hj
        omega
      obtain ⟨sup, hstep⟩ := SG_next_run d tasks p n k rep
        (permOfTrial initPerm oracle tasks.length (j / tasks.length))
        (j % tasks.length) (j / tasks.length) (oracle j) htrn
        (permOfTrial_perm tasks initPerm oracle tasks.length hperm0 hperms _)
        (Nat.mod_lt _ hm) hok
      exact ⟨_, by rw [hstep]⟩
    · intro j hj
      have hfreeze := SG_iter_frozen d tasks p n k rep initPerm oracle hm
        hperm0 hperms hok (j - k * tasks.length)
      rw [show k * tasks.length + (j - k * tasks.length) = j by omega] at hfreeze
      rw [hfreeze]
      refine congrArg Prod.fst (SG_next_stop _ _ ?_)
      rw [SG_iter_run d tasks p n k rep initPerm oracle hm hperm0 hperms hok
        (k * tasks.length) (Nat.le_refl _)]
      exact Nat.mul_div_cancel k hm
  · subst hk0
    have hiter : ∀ j, SG_iter (SG_init d tasks p n 0 rep initPerm) oracle j
        = SG_init d tasks p n 0 rep initPerm := by
      intro j
      induction j with
      | zero => rfl
      | succ j ih =>
          show (SG_next (SG_iter (SG_init d tasks p n 0 rep initPerm) oracle j)
            (oracle j)).2 = _
          rw [ih, SG_next_stop _ _ rfl]
    constructor
    · intro j hj
      simp at hj
    · intro j _
      rw [hiter j]
      exact congrArg Prod.fst (SG_next_stop _ _ rfl)

/-- Witness for C1: `exSG1`, one task, two trials; the advance after the
second yield (advance number 2 = k*m) raises `StopIteration`. -/
theorem supportGenerator_exhaustion_witness :
    0 < ([0] : List Nat).length ∧
    (SG_next (SG_iter (SG_init exSG1 [0] 1 1 2 true [0]) orc1 2) (orc1 2)).1
      = Except.error Signal.stopIteration :=
  ⟨by decide,
    (supportGenerator_exhaustion exSG1 [0] 1 1 2 true [0] orc1
      (Or.inl (by decide)) (by decide) (fun _ => List.Perm.refl [0])
      (by decide)).2 2 (by decide)⟩

/-- C1 counterexample: tasks `[]` (`m = 0`) with `n_trials = 1`.  The claim
demands `k*m = 0` pairs and an end-of-sequence signal on the first advance;
instead `self.perm_tasks[0]` indexes an empty permutation and the first
advance raises an `IndexError`. -/
theorem supportGenerator_emptyTasks_counterexample :
    (SG_next sgEmptyTasks (orc1 0)).1 = Except.error Signal.indexError ∧
    (SG_next sgEmptyTasks (orc1 0)).1 ≠ Except.error Signal.stopIteration := by
  have h : (SG_next sgEmptyTasks (orc1 0)).1
      = Except.error Signal.indexError := rfl
  refine ⟨h, ?_⟩
  intro hc
  rw [h] at hc
  simp at hc

/-! ## Claim C2: per-trial coverage in permutation order -/

/-- C2: over a nonempty task list, the yielded task at advance `τ*m + i`
(trial `τ`, position `i`) is entry `i` of trial `τ`'s permutation — so chunk
`τ` of the yielded sequence is exactly `permOfTrial τ` in order; every
`permOfTrial τ` is a permutation of `tasks` (hence, for duplicate-free
`tasks`, each chunk contains every task id exactly once); the state's
permutation after `j` advances is the one of trial `j / m` — it changes
exactly when the last task of a trial is consumed, not before the first
advance — and trial 0 runs on the permutation drawn at construction. -/
theorem supportGenerator_trial_coverage {α : Type} [Inhabited α]
    (d : Dataset α) (tasks : List Nat) (p n k : Nat) (rep : Bool)
    (initPerm : List Nat) (oracle : Nat → Oracle) (hm : 0 < tasks.length)
    (hperm0 : initPerm.Perm tasks)
    (hperms : ∀ j, ((oracle j).perm).Perm tasks)
    (hok : ∀ t ∈ tasks, supportDrawOK d p n t rep) :
    (∀ τ, τ < k → ∀ i, i < tasks.length →
      ∃ sup : TaskDataset α,
        (SG_next (SG_iter (SG_init d tasks p n k rep initPerm) oracle
            (τ * tasks.length + i)) (oracle (τ * tasks.length + i))).1
          = Except.ok
              ((permOfTrial initPerm oracle tasks.length τ).getD i 0, sup)) ∧
    (∀ τ, (permOfTrial initPerm oracle tasks.length τ).Perm tasks) ∧
    (tasks.Nodup → ∀ τ, ∀ t ∈ tasks,
      (permOfTrial initPerm oracle tasks.length τ).count t = 1) ∧
    (∀ j, j ≤ k * tasks.length →
      (SG_iter (SG_init d tasks p n k rep initPerm) oracle j).perm_tasks
        = permOfTrial initPerm oracle tasks.length (j / tasks.length)) ∧
    permOfTrial initPerm oracle tasks.length 0 = initPerm := by
  have hptp := permOfTrial_perm tasks initPerm oracle tasks.length hperm0 hperms
  refine ⟨?_, hptp, ?_, ?_, rfl⟩
  · intro τ hτ i hi
    have hjd : (τ * tasks.length + i) / tasks.length = τ := by
      rw [Nat.mul_comm τ tasks.length, Nat.mul_add_div hm,
        Nat.div_eq_of_lt hi, Nat.add_zero]
    have hjm : (τ * tasks.length + i) % tasks.length = i := by
      rw [Nat.mul_comm τ tasks.length, Nat.mul_add_mod, Nat.mod_eq_of_lt hi]
    have hjlt : τ * tasks.length + i < k * tasks.length := by
      have h1 : τ * tasks.length + i < (τ + 1) * tasks.length := by
        rw [Nat.succ_mul]
        omega
      have h2 : (τ + 1) * tasks.length ≤ k * tasks.length :=
        Nat.mul_le_mul_right _ (by omega)
      omega
    rw [SG_iter_run d tasks p n k rep initPerm oracle hm hperm0 hperms hok
      _ (Nat.le_of_lt hjlt)]
    have htrn : (τ * tasks.length + i) / tasks.length ≠ k := by
      rw [hjd]
      omega
    obtain ⟨sup, hstep⟩ := SG_next_run d tasks p n k rep
      (permOfTrial initPerm oracle tasks.length
        ((τ * tasks.length + i) / tasks.length))
      ((τ * tasks.length + i) % tasks.length)
      ((τ * tasks.length + i) / tasks.length)
      (oracle (τ * tasks.length + i)) htrn (hptp _) (Nat.mod_lt _ hm) hok
    refine ⟨sup, ?_⟩
    rw [hstep, hjd, hjm]
  · intro hnd τ t ht
    rw [(hptp τ).count_eq]
    exact List.count_eq_one_of_mem hnd ht
  · intro j hj
    rw [SG_iter_run d tasks p n k rep initPerm oracle hm hperm0 hperms hok
      j hj]

/-- Witness for C2: `exSG2` over tasks `[0, 1]`, two trials; advance 2 (trial
1, position 0) yields task 1, the head of the redrawn permutation `[1, 0]`. -/
theorem supportGenerator_trial_coverage_witness :
    0 < ([0, 1] : List Nat).length ∧
    (∃ sup : TaskDataset Int,
      (SG_next (SG_iter (SG_init exSG2 [0, 1] 1 1 2 true [0, 1]) orc2 2)
        (orc2 2)).1 = Except.ok (1, sup)) := by
  refine ⟨by decide, ?_⟩
  have hp : ([1, 0] : List Nat).Perm [0, 1] := by decide
  obtain ⟨sup, h⟩ := (supportGenerator_trial_coverage exSG2 [0, 1] 1 1 2 true
    [0, 1] orc2 (by decide) (by decide) (fun _ => hp)
    (by decide)).1 1 (by decide) 0 (by decide)
  exact ⟨sup, h⟩

/-! ## Claim C4: errors propagate and leave the state untouched -/

/-- C4: in a non-terminal state with an in-range cursor, if the support draw
raises an error, `next` propagates exactly that error and the returned object
state is the pre-call state unchanged (in particular `task_num`, `trial_num`
and `perm_tasks` are untouched): the increment-and-update statements of
lines 186-190 follow the draw and never run. -/
theorem SG_next_error_frame {α : Type} [Inhabited α] (s : SGState α)
    (o : Oracle) (hrun : s.trial_num ≠ s.n_trials) (task : Nat)
    (htask : s.perm_tasks[s.task_num]? = some task) (e : SampleError)
    (herr : get_task_support s.dataset s.n_pos s.n_neg task s.replace
      o.posDraw o.negDraw = Except.error e) :
    SG_next s o = (Except.error (Signal.sampleError e), s) := by
  simp only [SG_next, if_neg hrun, htask, herr]

/-- Witness for C4: `sgFailingDraw` draws from `exNoPos` with `n_pos = 1`,
which raises `EmptyPool`; the state comes back unchanged. -/
theorem SG_next_error_frame_witness :
    sgFailingDraw.trial_num ≠ sgFailingDraw.n_trials ∧
    SG_next sgFailingDraw (orc1 0)
      = (Except.error (Signal.sampleError SampleError.emptyPool),
         sgFailingDraw) :=
  ⟨by decide,
    SG_next_error_frame sgFailingDraw (orc1 0) (by decide) 0 rfl
      SampleError.emptyPool rfl⟩

/-! ## Claim C9: the backing dataset is never written -/

/-- C9: the advance operation (iterated any number of times, through
successes, sampling errors and exhaustion alike) never changes the backing
dataset: its `X`, `y`, `w` and `ids` after `j` advances are the ones the
generator was constructed with.  The selection primitives are pure functions
of the embedding — each builds a fresh `TaskDataset` value and takes the
source only as an immutable argument — so the generator's state is the sole
mutable entity, and its dataset component is invariant. -/
theorem SG_no_dataset_mutation {α : Type} [Inhabited α] (s : SGState α)
    (oracle : Nat → Oracle) (j : Nat) :
    (SG_iter s oracle j).dataset.X = s.dataset.X ∧
    (SG_iter s oracle j).dataset.y = s.dataset.y ∧
    (SG_iter s oracle j).dataset.w = s.dataset.w ∧
    (SG_iter s oracle j).dataset.ids = s.dataset.ids := by
  have h := SG_iter_dataset s oracle j
  exact ⟨by rw [h], by rw [h], by rw [h], by rw [h]⟩

/-! ## Claim C10: the support sampler ignores the weight mask -/

/-- C10: the pools of `get_task_support` are built from `y[:, task]` alone,
never consulting `w`.  A row with `w[i, t] = 0` whose label is 0 or 1 is
eligible: some draw returns a support consisting exactly of that row — while
that same (weightless) row never occurs among the task view's rows, all of
which have nonzero weight (`get_task_test` only slices the view, see C8). -/
theorem get_task_support_ignores_weights {α : Type} [Inhabited α]
    (d : Dataset α) (t i : Nat) (hal : aligned d) (hi : i < d.X.length)
    (hw0 : (colD d.w t).getD i 0 = 0)
    (hy01 : (colD d.y t).getD i 0 = 1 ∨ (colD d.y t).getD i 0 = 0) :
    (∃ (p n : Nat) (pd nd : Nat → Nat) (r : TaskDataset α),
      get_task_support d p n t true pd nd = Except.ok r ∧
      r.rows = [rowAtD d t i]) ∧
    rowAtD d t i ∉ (get_task_dataset d t).rows ∧
    (∀ row ∈ (get_task_dataset d t).rows, row.wv ≠ 0) := by
  have hview : ∀ row ∈ (get_task_dataset d t).rows, row.wv ≠ 0 := by
    intro row hrow
    rw [view_rows d t hal] at hrow
    have := List.of_mem_filter hrow
    simpa using this
  refine ⟨?_, ?_, hview⟩
  · rcases hy01 with hy1 | hy0
    · have hmem : i ∈ posPool d t := by
        rw [posPool, idxWhere_mem]
        have h1 := hal.1
        refine ⟨by simp [colD]; omega, by rw [hy1]; rfl⟩
      obtain ⟨j, hj, hij⟩ := List.mem_iff_getElem.mp hmem
      have hok : supportDrawOK d 1 0 t true := by
        refine ⟨?_, by simp, by simp, by simp⟩
        rintro ⟨h0, -⟩
        omega
      refine ⟨1, 0, (fun _ => j), (fun _ => 0), _,
        get_task_support_ok d 1 0 t true (fun _ => j) (fun _ => 0) hok, ?_⟩
      rw [supportResult_rows]
      simp [Nat.mod_eq_of_lt hj, List.getElem?_eq_getElem hj, hij]
    · have hmem : i ∈ negPool d t := by
        rw [negPool, idxWhere_mem]
        have h1 := hal.1
        refine ⟨by simp [colD]; omega, by rw [hy0]; rfl⟩
      obtain ⟨j, hj, hij⟩ := List.mem_iff_getElem.mp hmem
      have hok : supportDrawOK d 0 1 t true := by
        refine ⟨by simp, by simp, ?_, by simp⟩
        rintro ⟨h0, -⟩
        omega
      refine ⟨0, 1, (fun _ => 0), (fun _ => j), _,
        get_task_support_ok d 0 1 t true (fun _ => 0) (fun _ => j) hok, ?_⟩
      rw [supportResult_rows]
      simp [Nat.mod_eq_of_lt hj, List.getElem?_eq_getElem hj, hij]
  · intro hmem
    have hne := hview _ hmem
    exact hne hw0

/-- Witness for C10 at `exW0`, whose row 0 has label 1 but weight 0 on
task 0. -/
theorem get_task_support_ignores_weights_witness :
    aligned exW0 ∧ (colD exW0.w 0).getD 0 0 = 0 ∧
    ((∃ (p n : Nat) (pd nd : Nat → Nat) (r : TaskDataset Int),
      get_task_support exW0 p n 0 true pd nd = Except.ok r ∧
      r.rows = [rowAtD exW0 0 0]) ∧
    rowAtD exW0 0 0 ∉ (get_task_dataset exW0 0).rows ∧
    (∀ row ∈ (get_task_dataset exW0 0).rows, row.wv ≠ 0)) :=
  ⟨by decide, by decide,
    get_task_support_ignores_weights exW0 0 0 (by decide) (by decide)
      (by decide) (Or.inl (by decide))⟩

end Supports
